import Mathlib

/-!
Verification of the branded-identifier schema tooling.

This file gives a shallow embedding of the Go sources under
`sql/branded`, `sql/postgres` and `internal/branded`, together with a
model of the small part of the external `fiberfx` identifier core that
those sources call (string validity, namespace registry membership).
The `fiberfx` parts are modelled from the specification, since their
source lives in a separate module; everything else is translated
directly from the Go code.
-/

namespace Atlas

/-! ## The fiberfx identifier core (spec-modelled) -/

/-- Character class `[A-Z]`. -/
def isUpperAlpha (c : Char) : Bool := 65 ≤ c.toNat && c.toNat ≤ 90

/-- Character class `[a-z]`. -/
def isLowerAlpha (c : Char) : Bool := 97 ≤ c.toNat && c.toNat ≤ 122

/-- Character class `[0-9]`. -/
def isDigitChar (c : Char) : Bool := 48 ≤ c.toNat && c.toNat ≤ 57

/-- Character class `[0-9A-Za-z]`, the 62-symbol payload alphabet. -/
def isAlnumChar (c : Char) : Bool := isDigitChar c || isUpperAlpha c || isLowerAlpha c

/-- Modelled from the spec: `fiberfx.BrandedLen`, the total length of a
branded identifier (3-letter namespace plus 11-character payload). -/
def BrandedLen : Nat := 14

/-- Modelled from the spec: `fiberfx.NamespaceLen`, the length of the
namespace prefix. -/
def NamespaceLen : Nat := 3

/-- Boolean test that a string is exactly three uppercase ASCII letters,
the shape of a namespace code. -/
def isNamespace3 (ns : String) : Bool :=
  ns.data.length == 3 && ns.data.all isUpperAlpha

/-- Modelled from the spec: `fiberfx.Valid(raw)` holds iff `raw` matches
the normative format `[A-Z]` three times followed by `[0-9A-Za-z]`
eleven times, exactly 14 characters. -/
def fiberfxValid (raw : String) : Bool :=
  raw.length == BrandedLen
    && (raw.data.take NamespaceLen).all isUpperAlpha
    && (raw.data.drop NamespaceLen).all isAlnumChar

/-- Modelled from the spec: `fiberfx.IsValidNamespace(code)` is true iff
`code` is exactly 3 characters and present in the registered set. The
registry itself is an explicit table established at startup; it is
passed here as an explicit parameter. -/
def IsValidNamespace (registry : List String) (ns : String) : Bool :=
  ns.length == 3 && registry.contains ns

/-- Modelled from the spec: `fiberfx.AllNamespaces()`, the stable
enumeration of the registered namespaces. -/
def AllNamespaces (registry : List String) : List String := registry

/-- Rendering of the namespace enumeration as Go prints a slice, used in
error messages. -/
def formatNamespaceList (registry : List String) : String :=
  "[" ++ String.intercalate " " (AllNamespaces registry) ++ "]"

/-! ## The schema data model (from `sql/schema`, the parts used here) -/

/-- Closed union of the storage types that appear in the sources:
`schema.StringType`, `schema.IntegerType`, `schema.UUIDType` and the
branded marker type `branded.BrandedIDType`. -/
inductive SchemaType where
  | stringType (T : String) (size : Nat)
  | integerType (T : String)
  | uuidType (T : String)
  | brandedIDType (ns : String)
  deriving DecidableEq, Repr

/-- Mirror of `schema.ColumnType`: the concrete type (a possibly-nil
interface value) and the nullability flag. -/
structure ColumnType where
  type : Option SchemaType
  null : Bool
  deriving DecidableEq, Repr

/-- Column attributes; `schema.Comment` is the one the branded code
reads, all others are carried opaquely. -/
inductive Attr where
  | comment (text : String)
  | other (name : String)
  deriving DecidableEq, Repr

/-- Mirror of `schema.Column`: name, a possibly-nil column type, and the
attribute list. -/
structure Column where
  name : String
  type : Option ColumnType
  attrs : List Attr
  deriving DecidableEq, Repr

/-- Mirror of `schema.ForeignKey`: symbol, referencing columns and
referenced columns. -/
structure ForeignKey where
  symbol : String
  columns : List Column
  refColumns : List Column
  deriving DecidableEq, Repr

/-- Mirror of `schema.Table`: name, columns and foreign keys. -/
structure Table where
  name : String
  columns : List Column
  foreignKeys : List ForeignKey
  deriving DecidableEq, Repr

/-- Mirror of `schema.Schema`: name and tables. -/
structure Schema where
  name : String
  tables : List Table
  deriving DecidableEq, Repr

/-! ## Package `sql/branded` (`branded.go`) -/

/-- ASCII uppercase of a character, the behaviour of `strings.ToUpper`
on the ASCII range, the domain of namespace codes. -/
def asciiUpperChar (c : Char) : Char :=
  if isLowerAlpha c then Char.ofNat (c.toNat - 32) else c

/-- ASCII uppercase of a string. -/
def asciiUpper (s : String) : String := String.mk (s.data.map asciiUpperChar)

/-- Translation of `BrandedID(ns)`: builds the branded marker type with
the namespace folded to uppercase via `strings.ToUpper`. -/
def BrandedID (ns : String) : SchemaType :=
  SchemaType.brandedIDType (asciiUpper ns)

/-- Translation of `BrandedIDFromNamespace(ns)`: stores the namespace
verbatim. -/
def BrandedIDFromNamespace (ns : String) : SchemaType :=
  SchemaType.brandedIDType ns

/-- Translation of the method `(*BrandedIDType).Is`: the receiver is a
branded type with namespace `tns`; true iff `x` is also branded with an
equal namespace. -/
def brandedIs (tns : String) (x : SchemaType) : Bool :=
  match x with
  | SchemaType.brandedIDType b => tns == b
  | _ => false

/-- Translation of the constant `CommentMarker`. -/
def CommentMarker : String := "branded_id:"

/-- Tests whether the regular expression `branded_id:[A-Z]` (three
letters) matches at the head of the character list; on success returns
the captured namespace. This is the per-position step of
`reComment.FindStringSubmatch`. -/
def matchMarker (l : List Char) : Option String :=
  if CommentMarker.data.isPrefixOf l then
    match l.drop CommentMarker.data.length with
    | a :: b :: c :: _ =>
      if isUpperAlpha a && isUpperAlpha b && isUpperAlpha c then
        some (String.mk [a, b, c])
      else none
    | _ => none
  else none

/-- Leftmost-match scan of `reComment` over a character list. -/
def scanComment : List Char → Option String
  | [] => none
  | x :: rest =>
    match matchMarker (x :: rest) with
    | some ns => some ns
    | none => scanComment rest

/-- Translation of `ParseComment(comment)`: extracts the namespace of
the first `branded_id:XXX` token, if any. -/
def ParseComment (comment : String) : Option String :=
  scanComment comment.data

/-- Translation of `FormatComment(ns)`. -/
def FormatComment (ns : String) : String :=
  CommentMarker ++ ns

/-- Translation of `CheckConstraintExpr(column, ns)`. -/
def CheckConstraintExpr (column ns : String) : String :=
  column ++ " ~ '^" ++ ns ++ "[0-9A-Za-z]{11}$'"

/-- Translation of `CheckConstraintName(table, column)`. -/
def CheckConstraintName (table column : String) : String :=
  "chk_" ++ table ++ "_" ++ column ++ "_format"

/-! ## Package `sql/branded`, HCL type spec (`hcl.go`) -/

/-- Translation of the constant `TypeBrandedID`. -/
def TypeBrandedID : String := "branded_id"

/-- Mirror of `schemahcl.Attr` as used here: a key and a string value
(the only attribute kind these functions construct or read). -/
structure HclAttr where
  k : String
  v : String
  deriving DecidableEq, Repr

/-- Mirror of `schemahcl.Type`: a type name and its attributes. -/
structure HclType where
  t : String
  attrs : List HclAttr
  deriving DecidableEq, Repr

/-- Translation of `namespaceFromAttrs(attrs)`: the value of the first
attribute keyed `namespace`, or an error when none exists. -/
def namespaceFromAttrs (attrs : List HclAttr) : Except String String :=
  match attrs.find? (fun a => a.k == "namespace") with
  | some a => Except.ok a.v
  | none => Except.error "branded: missing namespace attribute"

/-- Translation of `fromSpec(t)`: HCL type to schema type. Fails on a
wrong type name, a missing namespace attribute, or an unregistered
namespace; otherwise builds the branded type via `BrandedID`. -/
def fromSpec (registry : List String) (t : HclType) : Except String SchemaType :=
  if t.t ≠ TypeBrandedID then
    Except.error ("branded: expected type \"" ++ TypeBrandedID ++ "\", got \"" ++ t.t ++ "\"")
  else
    match namespaceFromAttrs t.attrs with
    | Except.error e => Except.error e
    | Except.ok ns =>
      if ¬ (IsValidNamespace registry ns) then
        Except.error ("branded: invalid namespace \"" ++ ns ++ "\"; valid namespaces: "
          ++ formatNamespaceList registry)
      else
        Except.ok (BrandedID ns)

/-- Translation of `toSpec(t)`: schema type to HCL type; errors unless
the argument is the branded marker type. -/
def toSpec (t : SchemaType) : Except String HclType :=
  match t with
  | SchemaType.brandedIDType ns =>
    Except.ok { t := TypeBrandedID, attrs := [{ k := "namespace", v := ns }] }
  | _ => Except.error "branded: expected *BrandedIDType"

/-! ## Package `internal/branded` (`validator.go`) -/

/-- Mirror of `ValidationError` with its four context fields. -/
structure ValidationError where
  table : String
  column : String
  fk : String
  message : String
  deriving DecidableEq, Repr

/-- Mirror of the `Validator` configuration record. -/
structure Validator where
  strict : Bool
  checkNaming : Bool
  deriving DecidableEq, Repr

/-- Functional form of `ValidatorOption`. -/
def ValidatorOption : Type := Validator → Validator

/-- Translation of `WithStrict(strict)`. -/
def WithStrict (strict : Bool) : ValidatorOption :=
  fun v => { v with strict := strict }

/-- Translation of `WithNamingConvention(enabled)`. -/
def WithNamingConvention (enabled : Bool) : ValidatorOption :=
  fun v => { v with checkNaming := enabled }

/-- Translation of `NewValidator(opts...)`: strict on and naming check
off by default, then the options applied in order. -/
def NewValidator (opts : List ValidatorOption) : Validator :=
  opts.foldl (fun v opt => opt v) { strict := true, checkNaming := false }

/-- ASCII lowercase of a character, the behaviour of `strings.ToLower`
on the namespace-code domain. -/
def asciiLowerChar (c : Char) : Char :=
  if isUpperAlpha c then Char.ofNat (c.toNat + 32) else c

/-- ASCII lowercase of a string. -/
def asciiLower (s : String) : String := String.mk (s.data.map asciiLowerChar)

/-- Translation of the method `isValidColumnName(colName, ns)`. -/
def Validator.isValidColumnName (v : Validator) (colName ns : String) : Bool :=
  if colName == "id" then true
  else if colName == asciiLower ns ++ "_id" then true
  else if "_id".data.isSuffixOf colName.data then true
  else false

/-- Translation of the method `ValidateColumn(tableName, col)`. The
namespace registry of the external fiberfx package is passed explicitly.
A column whose `Type` pointer is nil is outside the domain (the Go code
would dereference it); it contributes no errors here. -/
def Validator.ValidateColumn (v : Validator) (registry : List String)
    (tableName : String) (col : Column) : List ValidationError :=
  match col.type with
  | none => []
  | some ct =>
    match ct.type with
    | some (SchemaType.brandedIDType ns) =>
      (if v.strict && ¬ (IsValidNamespace registry ns) then
        [{ table := tableName, column := col.name, fk := ""
           message := "unknown namespace \"" ++ ns ++ "\"; valid: "
             ++ formatNamespaceList registry }]
      else []) ++
      (if v.checkNaming && ¬ (v.isValidColumnName col.name ns) then
        [{ table := tableName, column := col.name, fk := ""
           message := "recommended naming is 'id' or '" ++ asciiLower ns ++ "_id'" }]
      else [])
    | _ => []

/-- Translation of the method `ValidateValue(value, expected)`: `none`
on success, `some` of the error message otherwise. -/
def Validator.ValidateValue (v : Validator) (value expected : String) : Option String :=
  if value.length ≠ BrandedLen then
    some ("branded ID must be " ++ toString BrandedLen ++ " characters, got "
      ++ toString value.length)
  else if ¬ (fiberfxValid value) then
    some ("branded ID \"" ++ value ++ "\" has invalid format")
  else if expected ≠ "" then
    let ns := value.take NamespaceLen
    if ns ≠ expected then
      some ("expected namespace \"" ++ expected ++ "\", got \"" ++ ns ++ "\"")
    else none
  else none

/-- The branded namespace of a column, when its type is the branded
marker type. -/
def colBrandedNS (c : Column) : Option String :=
  match c.type with
  | some ct =>
    match ct.type with
    | some (SchemaType.brandedIDType ns) => some ns
    | _ => none
  | none => none

/-- Loop body of `ValidateForeignKey` for one (referencing, referenced)
column pair. -/
def fkPairErrors (sym : String) (col refCol : Column) : List ValidationError :=
  match colBrandedNS col with
  | none => []
  | some ns =>
    match colBrandedNS refCol with
    | none =>
      [{ table := "", column := "", fk := sym
         message := "column \"" ++ col.name ++ "\" is branded_id but reference \""
           ++ refCol.name ++ "\" is not" }]
    | some refNs =>
      if ns ≠ refNs then
        [{ table := "", column := "", fk := sym
           message := "namespace mismatch \"" ++ col.name ++ "\" (" ++ ns ++ ") -> \""
             ++ refCol.name ++ "\" (" ++ refNs ++ ")" }]
      else []

/-- Indexed loop of `ValidateForeignKey`: pairs beyond the length of the
referenced-column list are skipped. -/
def fkLoop (sym : String) : List Column → List Column → List ValidationError
  | [], _ => []
  | _ :: _, [] => []
  | c :: cs, r :: rs => fkPairErrors sym c r ++ fkLoop sym cs rs

/-- Translation of the method `ValidateForeignKey(fk)`. -/
def Validator.ValidateForeignKey (v : Validator) (fk : ForeignKey) : List ValidationError :=
  fkLoop fk.symbol fk.columns fk.refColumns

/-- Translation of the method `ValidateTable(t)`: the two accumulation
loops over columns and then foreign keys. -/
def Validator.ValidateTable (v : Validator) (registry : List String)
    (t : Table) : List ValidationError :=
  let colErrs := t.columns.foldl
    (fun acc col => acc ++ v.ValidateColumn registry t.name col) []
  t.foreignKeys.foldl (fun acc fk => acc ++ v.ValidateForeignKey fk) colErrs

/-- Translation of the method `ValidateSchema(s)`: the accumulation loop
over tables. -/
def Validator.ValidateSchema (v : Validator) (registry : List String)
    (s : Schema) : List ValidationError :=
  s.tables.foldl (fun acc t => acc ++ v.ValidateTable registry t) []

/-! ## Package `sql/postgres` (`inspect_branded.go`) -/

/-- Loop of `getComment(c)`: text of the first comment attribute, or the
empty string. -/
def getCommentAux : List Attr → String
  | [] => ""
  | Attr.comment text :: _ => text
  | Attr.other _ :: rest => getCommentAux rest

/-- Translation of `getComment(c)`. -/
def getComment (c : Column) : String := getCommentAux c.attrs

/-- Translation of `isBrandedIDCompatible(t)`: a string type of size 14
(varchar, character varying or char); everything else is incompatible. -/
def isBrandedIDCompatible (t : SchemaType) : Bool :=
  match t with
  | SchemaType.stringType _ size => size == 14
  | _ => false

/-- Translation of `convertBrandedIDColumn(c)`: replaces the column type
with the branded marker when the comment carries a namespace marker and
the physical type is compatible; otherwise returns the column
unchanged. -/
def convertBrandedIDColumn (c : Column) : Column :=
  match c.type with
  | none => c
  | some ct =>
    let comment := getComment c
    if comment = "" then c
    else
      match ParseComment comment with
      | none => c
      | some ns =>
        match ct.type with
        | some st =>
          if isBrandedIDCompatible st then
            { c with type := some { ct with type := some (BrandedIDFromNamespace ns) } }
          else c
        | none => c

/-! ## Package `sql/postgres` (`branded_constraints.go`) -/

/-- Replacement of each `%s` verb in a format string by the next
argument, the behaviour of `fmt.Sprintf` on the formats used here. A
`%s` beyond the argument list renders as Go does. -/
def sprintfAux : List Char → List String → List Char
  | [], _ => []
  | '%' :: 's' :: rest, a :: args => a.data ++ sprintfAux rest args
  | '%' :: 's' :: rest, [] => "%!s(MISSING)".data ++ sprintfAux rest []
  | ch :: rest, args => ch :: sprintfAux rest args

/-- Two-argument `fmt.Sprintf` on string verbs. -/
def sprintf2 (format a b : String) : String :=
  String.mk (sprintfAux format.data [a, b])

/-- Go `%q` rendering of an identifier: double quotes around the string,
with embedded quotes and backslashes escaped. -/
def goQuote (s : String) : String :=
  "\"" ++ String.mk (s.data.flatMap
    (fun ch => if ch = '"' then ['\\', '"']
      else if ch = '\\' then ['\\', '\\'] else [ch])) ++ "\""

/-- Mirror of `brandedConstraintConfig`. -/
structure BrandedConstraintConfig where
  enabled : Bool
  constraintFmt : String
  deriving DecidableEq, Repr

/-- Functional form of `BrandedConstraintOption`. -/
def BrandedConstraintOption : Type := BrandedConstraintConfig → BrandedConstraintConfig

/-- Translation of `WithBrandedConstraints(enabled)`. -/
def WithBrandedConstraints (enabled : Bool) : BrandedConstraintOption :=
  fun c => { c with enabled := enabled }

/-- Translation of `WithConstraintFormat(format)`. -/
def WithConstraintFormat (format : String) : BrandedConstraintOption :=
  fun c => { c with constraintFmt := format }

/-- Mirror of `BrandedConstraintGenerator`. -/
structure BrandedConstraintGenerator where
  config : BrandedConstraintConfig
  deriving DecidableEq, Repr

/-- Translation of `NewBrandedConstraintGenerator(opts...)`: enabled by
default with the `chk_%s_%s_branded` name format, then the options
applied in order. -/
def NewBrandedConstraintGenerator (opts : List BrandedConstraintOption) :
    BrandedConstraintGenerator :=
  { config := opts.foldl (fun c opt => opt c)
      { enabled := true, constraintFmt := "chk_%s_%s_branded" } }

/-- Mirror of `schema.Check`: constraint name and expression. -/
structure Check where
  name : String
  expr : String
  deriving DecidableEq, Repr

/-- Translation of the method `GenerateForColumn(tableName, col)`:
`none` when generation is disabled or the column is not branded,
otherwise the named CHECK with the regex expression, nullable columns
getting the `IS NULL OR` guard. A column whose `Type` pointer is nil is
outside the domain (the Go code would dereference it). -/
def BrandedConstraintGenerator.GenerateForColumn (g : BrandedConstraintGenerator)
    (tableName : String) (col : Column) : Option Check :=
  if ¬ g.config.enabled then none
  else
    match col.type with
    | none => none
    | some ct =>
      match ct.type with
      | some (SchemaType.brandedIDType ns) =>
        let constraintName := sprintf2 g.config.constraintFmt tableName col.name
        let expr :=
          if ct.null then
            col.name ++ " IS NULL OR " ++ col.name ++ " ~ '^" ++ ns ++ "[0-9A-Za-z]{11}$'"
          else
            col.name ++ " ~ '^" ++ ns ++ "[0-9A-Za-z]{11}$'"
        some { name := constraintName, expr := expr }
      | _ => none

/-- Translation of the method `GenerateSQL(tableName, col)`: the ALTER
TABLE template around the generated check, or the empty string when no
check is generated. -/
def BrandedConstraintGenerator.GenerateSQL (g : BrandedConstraintGenerator)
    (tableName : String) (col : Column) : String :=
  match g.GenerateForColumn tableName col with
  | none => ""
  | some check =>
    "ALTER TABLE " ++ goQuote tableName ++ " ADD CONSTRAINT " ++ goQuote check.name
      ++ " CHECK (" ++ check.expr ++ ");"

/-! ## Helper lemmas -/

/-- Accumulating a list-valued function with `++` into an accumulator is
flat-mapping after the accumulator. -/
theorem foldl_append_eq_flatMap {α β : Type} (f : α → List β) (l : List α) (init : List β) :
    l.foldl (fun acc x => acc ++ f x) init = init ++ l.flatMap f := by
  induction l generalizing init with
  | nil => simp
  | cons x xs ih => simp [List.foldl_cons, ih]

/-- The indexed foreign-key loop walks the zip of the two column
lists. -/
theorem fkLoop_eq_zip (sym : String) (cs rs : List Column) :
    fkLoop sym cs rs = (cs.zip rs).flatMap (fun p => fkPairErrors sym p.1 p.2) := by
  induction cs generalizing rs with
  | nil => simp [fkLoop]
  | cons c cs ih =>
    cases rs with
    | nil => simp [fkLoop]
    | cons r rs => simp [fkLoop, ih]

/-- Every error the pair check emits carries the given symbol. -/
theorem fkPairErrors_symbol (sym : String) (c r : Column) :
    ∀ e ∈ fkPairErrors sym c r, e.fk = sym := by
  intro e he
  unfold fkPairErrors at he
  cases hc : colBrandedNS c with
  | none => simp [hc] at he
  | some ns =>
    cases hr : colBrandedNS r with
    | none => simp [hc, hr] at he; simp [he]
    | some nsr =>
      by_cases hne : ns = nsr
      · simp [hc, hr, hne] at he
      · simp [hc, hr, hne] at he; simp [he]

/-- Uppercase ASCII letters are untouched by the lowercase shift. -/
theorem asciiUpperChar_of_upper (c : Char) (h : isUpperAlpha c = true) :
    asciiUpperChar c = c := by
  unfold asciiUpperChar
  unfold isUpperAlpha at h
  have hlow : isLowerAlpha c = false := by
    unfold isLowerAlpha
    simp only [Bool.and_eq_true, decide_eq_true_eq] at h
    simp only [Bool.and_eq_false_iff, decide_eq_false_iff_not]
    omega
  simp [hlow]

/-- A string of uppercase ASCII letters is a fixed point of
`asciiUpper`. -/
theorem asciiUpper_of_upper (s : String) (h : s.data.all isUpperAlpha = true) :
    asciiUpper s = s := by
  unfold asciiUpper
  apply String.ext
  simp only [List.all_eq_true] at h
  conv_rhs => rw [← List.map_id s.data]
  apply List.map_congr_left
  intro c hc
  exact asciiUpperChar_of_upper c (h c hc)

/-- The default constraint-name template instantiated at a table and a
column. -/
theorem sprintf2_default (t c : String) :
    sprintf2 "chk_%s_%s_branded" t c = "chk_" ++ t ++ "_" ++ c ++ "_branded" := by
  apply String.ext
  simp [sprintf2, sprintfAux]

/-- A list of length three is literally a three-element list. -/
theorem exists_three {α : Type} (l : List α) (h : l.length = 3) :
    ∃ a b c, l = [a, b, c] := by
  cases l with
  | nil => simp at h
  | cons a l1 =>
    cases l1 with
    | nil => simp at h
    | cons b l2 =>
      cases l2 with
      | nil => simp at h
      | cons c l3 =>
        cases l3 with
        | nil => exact ⟨a, b, c, rfl⟩
        | cons d l4 => simp at h

/-- The single-position marker match succeeds exactly on lists that
start with the marker followed by three uppercase letters. -/
theorem matchMarker_eq_some_iff (l : List Char) (ns : String) :
    matchMarker l = some ns ↔
      ∃ a b c rest, l = CommentMarker.data ++ a :: b :: c :: rest ∧
        isUpperAlpha a = true ∧ isUpperAlpha b = true ∧ isUpperAlpha c = true ∧
        ns = String.mk [a, b, c] := by
  unfold matchMarker
  constructor
  · intro h
    by_cases hpre : CommentMarker.data.isPrefixOf l
    · rw [if_pos hpre] at h
      rw [ List.isPrefixOf_iff_prefix] at hpre
      obtain ⟨t, ht⟩ := hpre
      subst ht
      rw [List.drop_left] at h
      cases t with
      | nil => exact Option.noConfusion h
      | cons a t1 =>
        cases t1 with
        | nil => exact Option.noConfusion h
        | cons b t2 =>
          cases t2 with
          | nil => exact Option.noConfusion h
          | cons c rest =>
            have h2 : (if (isUpperAlpha a && isUpperAlpha b && isUpperAlpha c) = true
                then some (String.mk [a, b, c]) else none) = some ns := h
            by_cases hu : (isUpperAlpha a && isUpperAlpha b && isUpperAlpha c) = true
            · rw [if_pos hu] at h2
              simp only [Bool.and_eq_true] at hu
              exact ⟨a, b, c, rest, rfl, hu.1.1, hu.1.2, hu.2,
                (Option.some.inj h2).symm⟩
            · rw [if_neg hu] at h2
              exact Option.noConfusion h2
    · rw [if_neg hpre] at h
      exact Option.noConfusion h
  · rintro ⟨a, b, c, rest, rfl, ha, hb, hc, rfl⟩
    have hpre : CommentMarker.data.isPrefixOf
        (CommentMarker.data ++ a :: b :: c :: rest) = true := by
      rw [ List.isPrefixOf_iff_prefix]
      exact ⟨_, rfl⟩
    rw [if_pos hpre, List.drop_left]
    show (if (isUpperAlpha a && isUpperAlpha b && isUpperAlpha c) = true
        then some (String.mk [a, b, c]) else none) = some (String.mk [a, b, c])
    rw [if_pos (by simp [ha, hb, hc])]

/-- The empty comment matches nothing. -/
theorem matchMarker_nil : matchMarker ([] : List Char) = none := by decide

/-- A position match makes the scan succeed immediately. -/
theorem scanComment_of_matchMarker (l : List Char) (ns : String)
    (h : matchMarker l = some ns) : scanComment l = some ns := by
  cases l with
  | nil => rw [matchMarker_nil] at h; exact Option.noConfusion h
  | cons x rest => simp [scanComment, h]

/-- Soundness of the scan: a successful scan exhibits a leftmost marker
occurrence carrying the returned namespace. -/
theorem scanComment_sound (l : List Char) (ns : String) (h : scanComment l = some ns) :
    ∃ pre a b c post, l = pre ++ CommentMarker.data ++ [a, b, c] ++ post ∧
      isUpperAlpha a = true ∧ isUpperAlpha b = true ∧ isUpperAlpha c = true ∧
      ns = String.mk [a, b, c] ∧
      ∀ pre2 a2 b2 c2 post2,
        l = pre2 ++ CommentMarker.data ++ [a2, b2, c2] ++ post2 →
        isUpperAlpha a2 = true → isUpperAlpha b2 = true → isUpperAlpha c2 = true →
        pre.length ≤ pre2.length := by
  induction l with
  | nil => simp [scanComment] at h
  | cons x rest ih =>
    rw [scanComment] at h
    cases hm : matchMarker (x :: rest) with
    | some n =>
      rw [hm] at h
      have hn : n = ns := Option.some.inj h
      subst hn
      obtain ⟨a, b, c, rest2, hdec, ha, hb, hc, hns⟩ :=
        (matchMarker_eq_some_iff (x :: rest) n).mp hm
      refine ⟨[], a, b, c, rest2, by simpa using hdec, ha, hb, hc, hns, ?_⟩
      intro pre2 _ _ _ _ _ _ _ _
      exact Nat.zero_le _
    | none =>
      rw [hm] at h
      obtain ⟨pre, a, b, c, post, hdec, ha, hb, hc, hns, hmin⟩ := ih h
      refine ⟨x :: pre, a, b, c, post, by simp [hdec], ha, hb, hc, hns, ?_⟩
      intro pre2 a2 b2 c2 post2 heq ha2 hb2 hc2
      cases pre2 with
      | nil =>
        exfalso
        have : matchMarker (x :: rest) = some (String.mk [a2, b2, c2]) := by
          rw [matchMarker_eq_some_iff]
          exact ⟨a2, b2, c2, post2, by simpa using heq, ha2, hb2, hc2, rfl⟩
        rw [hm] at this
        exact Option.noConfusion this
      | cons y pre2' =>
        simp only [List.cons_append, List.cons.injEq] at heq
        have := hmin pre2' a2 b2 c2 post2 (by simpa using heq.2) ha2 hb2 hc2
        simpa [Nat.succ_le_succ_iff] using this

/-- Completeness of the scan: any marker occurrence makes the scan
succeed. -/
theorem scanComment_complete (pre post : List Char) (a b c : Char)
    (ha : isUpperAlpha a = true) (hb : isUpperAlpha b = true) (hc : isUpperAlpha c = true) :
    ∃ n, scanComment (pre ++ CommentMarker.data ++ [a, b, c] ++ post) = some n := by
  induction pre with
  | nil =>
    refine ⟨String.mk [a, b, c], ?_⟩
    apply scanComment_of_matchMarker
    rw [matchMarker_eq_some_iff]
    exact ⟨a, b, c, post, by simp, ha, hb, hc, rfl⟩
  | cons x pre ih =>
    obtain ⟨n, hn⟩ := ih
    have hcons : (x :: pre) ++ CommentMarker.data ++ [a, b, c] ++ post =
        x :: (pre ++ CommentMarker.data ++ [a, b, c] ++ post) := rfl
    rw [hcons]
    cases hm : matchMarker (x :: (pre ++ CommentMarker.data ++ [a, b, c] ++ post)) with
    | some n2 =>
      refine ⟨n2, ?_⟩
      rw [scanComment, hm]
    | none =>
      refine ⟨n, ?_⟩
      rw [scanComment, hm]
      exact hn

/-! ## Claim theorems -/

/-- C10: the `BrandedID` constructor normalizes its argument to ASCII
uppercase, so `BrandedID "tsk"` and `BrandedID "TSK"` are `Is`-equal,
while `BrandedIDFromNamespace` stores the namespace verbatim; neither
constructor checks the length of its argument (both are total, and
produce a marker for strings of any length). -/
theorem brandedID_normalization (ns : String) :
    BrandedID ns = SchemaType.brandedIDType (asciiUpper ns) ∧
    (asciiUpper ns).data = ns.data.map asciiUpperChar ∧
    BrandedIDFromNamespace ns = SchemaType.brandedIDType ns ∧
    (∀ ns2, asciiUpper ns = asciiUpper ns2 →
      brandedIs (asciiUpper ns) (BrandedID ns2) = true) ∧
    BrandedID "tsk" = BrandedID "TSK" ∧
    brandedIs (asciiUpper "tsk") (BrandedID "TSK") = true ∧
    BrandedIDFromNamespace "tsk" ≠ BrandedIDFromNamespace "TSK" ∧
    BrandedID "" = SchemaType.brandedIDType "" ∧
    BrandedIDFromNamespace "TOOLONG" = SchemaType.brandedIDType "TOOLONG" := by
  refine ⟨rfl, rfl, rfl, ?_, by decide, by decide, by decide, by decide, rfl⟩
  intro ns2 h
  simp [BrandedID, brandedIs, h]

/-- C10 witness: uppercase normalization evaluated at `"tsk"`. -/
theorem brandedID_normalization_witness :
    brandedIs (asciiUpper "tsk") (BrandedID "TSK") = true :=
  (brandedID_normalization "tsk").2.2.2.1 "TSK" (by decide)

/-- C4 counterexample: the `CheckConstraintName` helper does not return
the generator's default `chk_<table>_<col>_branded` name; at
`("tasks", "id")` it returns `chk_tasks_id_format`. -/
theorem checkConstraintName_counterexample :
    CheckConstraintName "tasks" "id" = "chk_tasks_id_format" ∧
    CheckConstraintName "tasks" "id" ≠ "chk_tasks_id_branded" := by
  decide

/-- C4 (amended): the generator built with no options names its CHECK
constraint with the `chk_<table>_<col>_branded` template; supplying a
two-placeholder format through `WithConstraintFormat` overrides the name
to that template applied to `(table, column)`; `CheckConstraintName`
follows the distinct `chk_<table>_<col>_format` convention. -/
theorem constraintName_default_and_override (t c f : String) :
    (∀ col ct ns, col.type = some ct →
      ct.type = some (SchemaType.brandedIDType ns) →
      ((NewBrandedConstraintGenerator []).GenerateForColumn t col).map Check.name =
        some ("chk_" ++ t ++ "_" ++ col.name ++ "_branded")) ∧
    CheckConstraintName t c = "chk_" ++ t ++ "_" ++ c ++ "_format" ∧
    (∀ col ct ns, col.type = some ct →
      ct.type = some (SchemaType.brandedIDType ns) →
      ((NewBrandedConstraintGenerator [WithConstraintFormat f]).GenerateForColumn
        t col).map Check.name = some (sprintf2 f t col.name)) := by
  refine ⟨?_, rfl, ?_⟩
  · intro col ct ns hty hbr
    simp [BrandedConstraintGenerator.GenerateForColumn, NewBrandedConstraintGenerator,
      hty, hbr, sprintf2_default]
  · intro col ct ns hty hbr
    simp [BrandedConstraintGenerator.GenerateForColumn, NewBrandedConstraintGenerator,
      WithConstraintFormat, hty, hbr]

/-- C4 witness: the default and overridden names evaluated at table
`tasks`, column `id`. -/
theorem constraintName_default_and_override_witness :
    ((NewBrandedConstraintGenerator []).GenerateForColumn "tasks"
        { name := "id"
          type := some { type := some (SchemaType.brandedIDType "TSK"), null := false }
          attrs := [] }).map Check.name = some "chk_tasks_id_branded" ∧
    ((NewBrandedConstraintGenerator [WithConstraintFormat "branded_%s_%s_check"]).GenerateForColumn
        "tasks"
        { name := "id"
          type := some { type := some (SchemaType.brandedIDType "TSK"), null := false }
          attrs := [] }).map Check.name = some "branded_tasks_id_check" := by
  constructor
  · have h := (constraintName_default_and_override "tasks" "id" "branded_%s_%s_check").1
      { name := "id"
        type := some { type := some (SchemaType.brandedIDType "TSK"), null := false }
        attrs := [] }
      { type := some (SchemaType.brandedIDType "TSK"), null := false } "TSK" rfl rfl
    exact h.trans (by decide)
  · have h := (constraintName_default_and_override "tasks" "id" "branded_%s_%s_check").2.2
      { name := "id"
        type := some { type := some (SchemaType.brandedIDType "TSK"), null := false }
        attrs := [] }
      { type := some (SchemaType.brandedIDType "TSK"), null := false } "TSK" rfl rfl
    exact h.trans (by decide)

/-- C5: for a branded column the generated CHECK expression is the
namespace regex, guarded by `IS NULL OR` exactly when the column is
nullable, and `GenerateSQL` wraps it in the ALTER TABLE template; a
non-branded column, or a generator disabled through
`WithBrandedConstraints(false)`, generates nothing. -/
theorem generateForColumn_spec (t : String) (col : Column) (ct : ColumnType)
    (hty : col.type = some ct) :
    (∀ ns, ct.type = some (SchemaType.brandedIDType ns) →
      (ct.null = false →
        (NewBrandedConstraintGenerator []).GenerateForColumn t col =
          some { name := sprintf2 "chk_%s_%s_branded" t col.name
                 expr := col.name ++ " ~ '^" ++ ns ++ "[0-9A-Za-z]{11}$'" }) ∧
      (ct.null = true →
        (NewBrandedConstraintGenerator []).GenerateForColumn t col =
          some { name := sprintf2 "chk_%s_%s_branded" t col.name
                 expr := col.name ++ " IS NULL OR " ++ col.name ++ " ~ '^" ++ ns
                   ++ "[0-9A-Za-z]{11}$'" }) ∧
      (∀ check, (NewBrandedConstraintGenerator []).GenerateForColumn t col = some check →
        (NewBrandedConstraintGenerator []).GenerateSQL t col =
          "ALTER TABLE " ++ goQuote t ++ " ADD CONSTRAINT " ++ goQuote check.name
            ++ " CHECK (" ++ check.expr ++ ");")) ∧
    ((∀ ns, ct.type ≠ some (SchemaType.brandedIDType ns)) →
      (NewBrandedConstraintGenerator []).GenerateForColumn t col = none) ∧
    (NewBrandedConstraintGenerator [WithBrandedConstraints false]).GenerateForColumn
      t col = none := by
  refine ⟨?_, ?_, ?_⟩
  · intro ns hbr
    refine ⟨?_, ?_, ?_⟩
    · intro hnull
      simp [BrandedConstraintGenerator.GenerateForColumn, NewBrandedConstraintGenerator,
        hty, hbr, hnull]
    · intro hnull
      simp [BrandedConstraintGenerator.GenerateForColumn, NewBrandedConstraintGenerator,
        hty, hbr, hnull]
    · intro check hcheck
      simp [BrandedConstraintGenerator.GenerateSQL, hcheck]
  · intro hnot
    simp only [BrandedConstraintGenerator.GenerateForColumn, NewBrandedConstraintGenerator,
      List.foldl_nil, hty]
    cases hct : ct.type with
    | none => simp
    | some st =>
      cases st with
      | brandedIDType ns => exact absurd hct (hnot ns)
      | stringType T size => simp
      | integerType T => simp
      | uuidType T => simp
  · simp [BrandedConstraintGenerator.GenerateForColumn, NewBrandedConstraintGenerator,
      WithBrandedConstraints]

/-- C5 witness: the generated SQL for a non-nullable TASK column `id` in
table `tasks`, and the nullable EPC variant of the expression. -/
theorem generateForColumn_spec_witness :
    (NewBrandedConstraintGenerator []).GenerateSQL "tasks"
        { name := "id"
          type := some { type := some (SchemaType.brandedIDType "TSK"), null := false }
          attrs := [] } =
      "ALTER TABLE \"tasks\" ADD CONSTRAINT \"chk_tasks_id_branded\" CHECK (id ~ '^TSK[0-9A-Za-z]{11}$');" ∧
    (NewBrandedConstraintGenerator []).GenerateForColumn "tasks"
        { name := "epic_id"
          type := some { type := some (SchemaType.brandedIDType "EPC"), null := true }
          attrs := [] } =
      some { name := "chk_tasks_epic_id_branded"
             expr := "epic_id IS NULL OR epic_id ~ '^EPC[0-9A-Za-z]{11}$'" } := by
  constructor
  · have hfc := (((generateForColumn_spec "tasks"
      { name := "id"
        type := some { type := some (SchemaType.brandedIDType "TSK"), null := false }
        attrs := [] }
      { type := some (SchemaType.brandedIDType "TSK"), null := false } rfl).1 "TSK" rfl).1 rfl)
    have hsql := (((generateForColumn_spec "tasks"
      { name := "id"
        type := some { type := some (SchemaType.brandedIDType "TSK"), null := false }
        attrs := [] }
      { type := some (SchemaType.brandedIDType "TSK"), null := false } rfl).1 "TSK" rfl).2.2
      _ hfc)
    exact hsql.trans (by decide)
  · have h := (((generateForColumn_spec "tasks"
      { name := "epic_id"
        type := some { type := some (SchemaType.brandedIDType "EPC"), null := true }
        attrs := [] }
      { type := some (SchemaType.brandedIDType "EPC"), null := true } rfl).1 "EPC" rfl).2.1 rfl)
    exact h.trans (by decide)

/-- C6: schema validation accumulates and never short-circuits:
`ValidateSchema` is the in-order concatenation of `ValidateTable` over
the tables, and `ValidateTable` is the in-order concatenation of the
per-column errors followed by the per-foreign-key errors. -/
theorem validate_accumulates (v : Validator) (registry : List String) (s : Schema) :
    v.ValidateSchema registry s = s.tables.flatMap (v.ValidateTable registry) ∧
    ∀ t, v.ValidateTable registry t =
      t.columns.flatMap (v.ValidateColumn registry t.name)
        ++ t.foreignKeys.flatMap v.ValidateForeignKey := by
  constructor
  · rw [Validator.ValidateSchema, foldl_append_eq_flatMap]
    simp
  · intro t
    rw [Validator.ValidateTable]
    rw [foldl_append_eq_flatMap, foldl_append_eq_flatMap]
    simp

/-- C2: the foreign-key check walks the referencing/referenced column
pairs; a pair with a non-branded referencing column contributes no
error, a branded-to-non-branded pair and a namespace-mismatched pair
contribute exactly one each, a namespace-matched pair contributes none,
and every emitted error carries the foreign key symbol. -/
theorem validateForeignKey_spec (v : Validator) (fk : ForeignKey) :
    v.ValidateForeignKey fk =
      (fk.columns.zip fk.refColumns).flatMap (fun p => fkPairErrors fk.symbol p.1 p.2) ∧
    (∀ e ∈ v.ValidateForeignKey fk, e.fk = fk.symbol) ∧
    (∀ c r, colBrandedNS c = none → fkPairErrors fk.symbol c r = []) ∧
    (∀ c r ns, colBrandedNS c = some ns → colBrandedNS r = none →
      (fkPairErrors fk.symbol c r).length = 1) ∧
    (∀ c r ns nsr, colBrandedNS c = some ns → colBrandedNS r = some nsr → ns ≠ nsr →
      (fkPairErrors fk.symbol c r).length = 1) ∧
    (∀ c r ns, colBrandedNS c = some ns → colBrandedNS r = some ns →
      fkPairErrors fk.symbol c r = []) := by
  refine ⟨fkLoop_eq_zip fk.symbol fk.columns fk.refColumns, ?_, ?_, ?_, ?_, ?_⟩
  · intro e he
    rw [Validator.ValidateForeignKey, fkLoop_eq_zip] at he
    simp only [List.mem_flatMap] at he
    obtain ⟨p, hmem, hp⟩ := he
    exact fkPairErrors_symbol fk.symbol p.1 p.2 e hp
  · intro c r hc
    simp [fkPairErrors, hc]
  · intro c r ns hc hr
    simp [fkPairErrors, hc, hr]
  · intro c r ns nsr hc hr hne
    simp [fkPairErrors, hc, hr, hne]
  · intro c r ns hc hr
    simp [fkPairErrors, hc, hr]

/-- C2 witness: a foreign key from a branded TASK column to a branded
EPIC column yields exactly one error, and a branded-to-integer pair
yields exactly one error. -/
theorem validateForeignKey_spec_witness :
    (fkPairErrors "fk_bad"
      { name := "task_id"
        type := some { type := some (SchemaType.brandedIDType "TSK"), null := false }
        attrs := [] }
      { name := "id"
        type := some { type := some (SchemaType.brandedIDType "EPC"), null := false }
        attrs := [] }).length = 1 ∧
    (fkPairErrors "fk_mixed"
      { name := "epic_id"
        type := some { type := some (SchemaType.brandedIDType "EPC"), null := false }
        attrs := [] }
      { name := "id"
        type := some { type := some (SchemaType.integerType "bigint"), null := false }
        attrs := [] }).length = 1 := by
  constructor
  · exact (validateForeignKey_spec (NewValidator [])
      { symbol := "fk_bad", columns := [], refColumns := [] }).2.2.2.2.1 _ _ "TSK" "EPC"
      rfl rfl (by decide)
  · exact (validateForeignKey_spec (NewValidator [])
      { symbol := "fk_mixed", columns := [], refColumns := [] }).2.2.2.1 _ _ "EPC"
      rfl rfl

/-- C3: with the default validator (strict on, naming check off), a
column of a branded type with an unregistered namespace yields exactly
one error tagged with the table and column and whose message contains
`unknown namespace`; a registered namespace yields none, and a
non-branded column yields none. The registry is the fiberfx table of
3-letter codes. -/
theorem validateColumn_strict_spec (registry : List String) (tableName : String)
    (col : Column) (ct : ColumnType) (hty : col.type = some ct)
    (hreg : ∀ code ∈ registry, code.length = 3) :
    ((∀ ns, ct.type ≠ some (SchemaType.brandedIDType ns)) →
      (NewValidator []).ValidateColumn registry tableName col = []) ∧
    (∀ ns, ct.type = some (SchemaType.brandedIDType ns) →
      (ns ∈ registry → (NewValidator []).ValidateColumn registry tableName col = []) ∧
      (ns ∉ registry →
        ∃ msg, (NewValidator []).ValidateColumn registry tableName col =
            [{ table := tableName, column := col.name, fk := "", message := msg }] ∧
          ∃ pre post, msg = pre ++ "unknown namespace" ++ post)) := by
  constructor
  · intro hnot
    simp only [Validator.ValidateColumn, NewValidator, List.foldl_nil, hty]
  · intro ns hbr
    constructor
    · intro hmem
      have hcon : registry.contains ns = true := by
        have := List.elem_eq_true_of_mem hmem
        simpa [List.contains] using this
      have hvalid : IsValidNamespace registry ns = true := by
        unfold IsValidNamespace
        rw [hcon, hreg ns hmem]
        decide
      simp [Validator.ValidateColumn, NewValidator, hty, hbr, hvalid]
    · intro hmem
      have hcon : registry.contains ns = false := by
        rw [Bool.eq_false_iff]
        intro hc
        exact hmem (List.mem_of_elem_eq_true (by simpa [List.contains] using hc))
      have hvalid : IsValidNamespace registry ns = false := by
        unfold IsValidNamespace
        rw [hcon]
        simp
      refine ⟨"unknown namespace \"" ++ ns ++ "\"; valid: " ++ formatNamespaceList registry,
        ?_, "", " \"" ++ ns ++ "\"; valid: " ++ formatNamespaceList registry, ?_⟩
      · simp [Validator.ValidateColumn, NewValidator, hty, hbr, hvalid]
      · apply String.ext
        simp

/-- C3 witness: one `unknown namespace` error for an unregistered `XXX`
column against the registry holding `TSK` and `EPC`, and no error for a
registered `TSK` column. -/
theorem validateColumn_strict_spec_witness :
    (∃ msg, (NewValidator []).ValidateColumn ["TSK", "EPC"] "test"
        { name := "id"
          type := some { type := some (SchemaType.brandedIDType "XXX"), null := false }
          attrs := [] } =
        [{ table := "test", column := "id", fk := "", message := msg }] ∧
      ∃ pre post, msg = pre ++ "unknown namespace" ++ post) ∧
    (NewValidator []).ValidateColumn ["TSK", "EPC"] "tasks"
      { name := "id"
        type := some { type := some (SchemaType.brandedIDType "TSK"), null := false }
        attrs := [] } = [] := by
  constructor
  · exact ((validateColumn_strict_spec ["TSK", "EPC"] "test"
      { name := "id"
        type := some { type := some (SchemaType.brandedIDType "XXX"), null := false }
        attrs := [] }
      { type := some (SchemaType.brandedIDType "XXX"), null := false } rfl
      (by decide)).2 "XXX" rfl).2 (by decide)
  · exact ((validateColumn_strict_spec ["TSK", "EPC"] "tasks"
      { name := "id"
        type := some { type := some (SchemaType.brandedIDType "TSK"), null := false }
        attrs := [] }
      { type := some (SchemaType.brandedIDType "TSK"), null := false } rfl
      (by decide)).2 "TSK" rfl).1 (by decide)

/-- Characterization of the modelled format check: a string passes iff
it splits into three uppercase letters followed by eleven alphanumeric
characters. -/
theorem fiberfxValid_iff (value : String) :
    fiberfxValid value = true ↔
      ∃ pre suf, value.data = pre ++ suf ∧ pre.length = 3 ∧
        pre.all isUpperAlpha = true ∧ suf.length = 11 ∧ suf.all isAlnumChar = true := by
  obtain ⟨data⟩ := value
  unfold fiberfxValid BrandedLen NamespaceLen
  constructor
  · intro h
    simp only [Bool.and_eq_true, beq_iff_eq] at h
    obtain ⟨⟨hlen, hup⟩, hal⟩ := h
    have hlen14 : data.length = 14 := hlen
    refine ⟨data.take 3, data.drop 3, (data.take_append_drop 3).symm, ?_, hup, ?_, hal⟩
    · simp [List.length_take, hlen14]
    · simp [List.length_drop, hlen14]
  · rintro ⟨pre, suf, hsplit, hpre, hup, hsuf, hal⟩
    replace hsplit : data = pre ++ suf := hsplit
    have hl : data.length = 14 := by
      rw [hsplit, List.length_append, hpre, hsuf]
    simp only [Bool.and_eq_true, beq_iff_eq]
    refine ⟨⟨hl, ?_⟩, ?_⟩
    · rw [hsplit, List.take_left' hpre]
      exact hup
    · rw [hsplit, List.drop_left' hpre]
      exact hal

/-- C1: `ValidateValue(value, expected)` succeeds iff `value` is exactly
14 characters, matches the branded-ID syntax, and the expected namespace
is empty or equals the first three characters; registry membership plays
no part (the check takes no registry at all). -/
theorem validateValue_none_iff (v : Validator) (value expected : String) :
    v.ValidateValue value expected = none ↔
      (value.length = 14 ∧
        (∃ pre suf, value.data = pre ++ suf ∧ pre.length = 3 ∧
          pre.all isUpperAlpha = true ∧ suf.length = 11 ∧ suf.all isAlnumChar = true) ∧
        (expected = "" ∨ value.take 3 = expected)) := by
  unfold Validator.ValidateValue
  constructor
  · intro h
    by_cases hlen : value.length = BrandedLen
    · by_cases hval : fiberfxValid value = true
      · refine ⟨hlen, (fiberfxValid_iff value).mp hval, ?_⟩
        by_cases hexp : expected = ""
        · exact Or.inl hexp
        · right
          by_cases hns : value.take NamespaceLen = expected
          · exact hns
          · simp [hlen, hval, hexp, hns] at h
      · simp [hlen, hval] at h
    · simp [hlen] at h
  · rintro ⟨hlen, hsyn, hexp⟩
    have hval : fiberfxValid value = true := by
      rw [fiberfxValid_iff]
      exact hsyn
    have hlen' : value.length = BrandedLen := hlen
    rcases hexp with hemp | hns
    · simp [hlen', hval, hemp]
    · simp only [BrandedLen, NamespaceLen] at *
      simp [hlen', hval, hns]

/-- C1 witness: the checks evaluated at the concrete identifier
`TSK0Ij1P13FRDM` with and without an expected namespace. -/
theorem validateValue_none_iff_witness :
    (NewValidator []).ValidateValue "TSK0Ij1P13FRDM" "" = none ∧
    (NewValidator []).ValidateValue "TSK0Ij1P13FRDM" "EPC" ≠ none := by
  constructor
  · exact (validateValue_none_iff (NewValidator []) "TSK0Ij1P13FRDM" "").mpr
      ⟨by decide,
        ⟨['T', 'S', 'K'], ['0', 'I', 'j', '1', 'P', '1', '3', 'F', 'R', 'D', 'M'],
          by decide, by decide, by decide, by decide, by decide⟩,
        Or.inl rfl⟩
  · intro h
    have h3 := ((validateValue_none_iff (NewValidator []) "TSK0Ij1P13FRDM" "EPC").mp h).2.2
    revert h3
    decide

/-- Unpacking of the namespace-shape test. -/
theorem isNamespace3_spec (ns : String) (h : isNamespace3 ns = true) :
    ns.length = 3 ∧ ns.data.all isUpperAlpha = true := by
  unfold isNamespace3 at h
  simp only [Bool.and_eq_true, beq_iff_eq] at h
  obtain ⟨h1, h2⟩ := h
  refine ⟨?_, h2⟩
  cases ns
  simpa [String.length] using h1

/-- C8: the declarative-config mapping round-trips for a registered
namespace: `toSpec` renders the `branded_id` HCL type with the single
string attribute `namespace`, and `fromSpec` recovers the branded type
with the same namespace; `fromSpec` fails on a wrong type name, a
missing `namespace` attribute, or an unregistered namespace. -/
theorem hcl_spec_roundtrip (registry : List String)
    (hreg : ∀ code ∈ registry, isNamespace3 code = true)
    (ns : String) (hns : ns ∈ registry) :
    toSpec (SchemaType.brandedIDType ns) =
      Except.ok { t := TypeBrandedID, attrs := [{ k := "namespace", v := ns }] } ∧
    fromSpec registry { t := TypeBrandedID, attrs := [{ k := "namespace", v := ns }] } =
      Except.ok (SchemaType.brandedIDType ns) ∧
    (∀ t, t.t ≠ TypeBrandedID → ∃ msg, fromSpec registry t = Except.error msg) ∧
    (∀ t, (∀ a ∈ t.attrs, a.k ≠ "namespace") →
      ∃ msg, fromSpec registry t = Except.error msg) ∧
    (∀ t ns2, namespaceFromAttrs t.attrs = Except.ok ns2 → ns2 ∉ registry →
      ∃ msg, fromSpec registry t = Except.error msg) := by
  have hshape := isNamespace3_spec ns (hreg ns hns)
  have hcon : registry.contains ns = true := by
    have := List.elem_eq_true_of_mem hns
    simpa [List.contains] using this
  have hvalid : IsValidNamespace registry ns = true := by
    unfold IsValidNamespace
    rw [hcon, hshape.1]
    decide
  refine ⟨rfl, ?_, ?_, ?_, ?_⟩
  · have hup : asciiUpper ns = ns := asciiUpper_of_upper ns hshape.2
    simp [fromSpec, namespaceFromAttrs, List.find?, hvalid, BrandedID, hup]
  · intro t h
    refine ⟨"branded: expected type \"" ++ TypeBrandedID ++ "\", got \"" ++ t.t ++ "\"", ?_⟩
    simp [fromSpec, h]
  · intro t hnone
    have hfind : namespaceFromAttrs t.attrs = Except.error "branded: missing namespace attribute" := by
      unfold namespaceFromAttrs
      have : t.attrs.find? (fun a => a.k == "namespace") = none := by
        rw [List.find?_eq_none]
        intro a ha
        simpa using hnone a ha
      rw [this]
    by_cases ht : t.t = TypeBrandedID
    · refine ⟨"branded: missing namespace attribute", ?_⟩
      simp [fromSpec, ht, hfind]
    · refine ⟨"branded: expected type \"" ++ TypeBrandedID ++ "\", got \"" ++ t.t ++ "\"", ?_⟩
      simp [fromSpec, ht]
  · intro t ns2 hok hmem
    have hcon2 : registry.contains ns2 = false := by
      rw [Bool.eq_false_iff]
      intro hc
      exact hmem (List.mem_of_elem_eq_true (by simpa [List.contains] using hc))
    have hvalid2 : IsValidNamespace registry ns2 = false := by
      unfold IsValidNamespace
      rw [hcon2]
      simp
    by_cases ht : t.t = TypeBrandedID
    · refine ⟨"branded: invalid namespace \"" ++ ns2 ++ "\"; valid namespaces: "
        ++ formatNamespaceList registry, ?_⟩
      simp [fromSpec, ht, hok, hvalid2]
    · refine ⟨"branded: expected type \"" ++ TypeBrandedID ++ "\", got \"" ++ t.t ++ "\"", ?_⟩
      simp [fromSpec, ht]

/-- C8 witness: the round trip evaluated at the registered namespace
`TSK`. -/
theorem hcl_spec_roundtrip_witness :
    toSpec (SchemaType.brandedIDType "TSK") =
      Except.ok { t := "branded_id", attrs := [{ k := "namespace", v := "TSK" }] } ∧
    fromSpec ["TSK"] { t := "branded_id", attrs := [{ k := "namespace", v := "TSK" }] } =
      Except.ok (SchemaType.brandedIDType "TSK") :=
  ⟨(hcl_spec_roundtrip ["TSK"] (by decide) "TSK" (by decide)).1,
   (hcl_spec_roundtrip ["TSK"] (by decide) "TSK" (by decide)).2.1⟩

/-- C9 counterexample: a fixed-length `character(14)` column carrying a
`branded_id:TSK` comment is converted by the code, although `character`
is not a variable-length character type; only the size is checked. -/
theorem convert_char14_counterexample :
    convertBrandedIDColumn
      { name := "code"
        type := some { type := some (SchemaType.stringType "character" 14), null := false }
        attrs := [Attr.comment "branded_id:TSK"] } =
      { name := "code"
        type := some { type := some (SchemaType.brandedIDType "TSK"), null := false }
        attrs := [Attr.comment "branded_id:TSK"] } ∧
    isBrandedIDCompatible (SchemaType.stringType "character" 14) = true := by
  decide

/-- C9 (amended): `convertBrandedIDColumn` replaces the column type with
the branded marker of the first commented namespace iff the comment
carries a `branded_id:NS` marker and the physical type is a string type
of exactly size 14 (variable- or fixed-length alike); in every other
case the column is unchanged, and a conversion changes nothing but the
type. -/
theorem convertBrandedIDColumn_spec (c : Column) :
    (∀ ct st ns, c.type = some ct → ct.type = some st →
      ParseComment (getComment c) = some ns → isBrandedIDCompatible st = true →
      convertBrandedIDColumn c =
        { c with type := some { ct with type := some (SchemaType.brandedIDType ns) } }) ∧
    (c.type = none → convertBrandedIDColumn c = c) ∧
    (ParseComment (getComment c) = none → convertBrandedIDColumn c = c) ∧
    (∀ ct, c.type = some ct → ct.type = none → convertBrandedIDColumn c = c) ∧
    (∀ ct st, c.type = some ct → ct.type = some st → isBrandedIDCompatible st = false →
      convertBrandedIDColumn c = c) ∧
    ((convertBrandedIDColumn c).name = c.name ∧
      (convertBrandedIDColumn c).attrs = c.attrs) ∧
    (∀ st, isBrandedIDCompatible st = true ↔ ∃ T, st = SchemaType.stringType T 14) := by
  refine ⟨?_, ?_, ?_, ?_, ?_, ?_, ?_⟩
  · intro ct st ns hty hst hpc hcompat
    have hne : getComment c ≠ "" := by
      intro he
      rw [he] at hpc
      exact Option.noConfusion hpc
    simp [convertBrandedIDColumn, hty, hne, hpc, hst, hcompat, BrandedIDFromNamespace]
  · intro hty
    simp [convertBrandedIDColumn, hty]
  · intro hpc
    cases hty : c.type with
    | none => simp [convertBrandedIDColumn, hty]
    | some ct =>
      by_cases hne : getComment c = ""
      · simp [convertBrandedIDColumn, hty, hne]
      · simp [convertBrandedIDColumn, hty, hne, hpc]
  · intro ct hty hst
    by_cases hne : getComment c = ""
    · simp [convertBrandedIDColumn, hty, hne]
    · cases hpc : ParseComment (getComment c) with
      | none => simp [convertBrandedIDColumn, hty, hne, hpc]
      | some ns => simp [convertBrandedIDColumn, hty, hne, hpc, hst]
  · intro ct st hty hst hcompat
    by_cases hne : getComment c = ""
    · simp [convertBrandedIDColumn, hty, hne]
    · cases hpc : ParseComment (getComment c) with
      | none => simp [convertBrandedIDColumn, hty, hne, hpc]
      | some ns => simp [convertBrandedIDColumn, hty, hne, hpc, hst, hcompat]
  · cases hty : c.type with
    | none => simp [convertBrandedIDColumn, hty]
    | some ct =>
      by_cases hne : getComment c = ""
      · simp [convertBrandedIDColumn, hty, hne]
      · cases hpc : ParseComment (getComment c) with
        | none => simp [convertBrandedIDColumn, hty, hne, hpc]
        | some ns =>
          cases hst : ct.type with
          | none => simp [convertBrandedIDColumn, hty, hne, hpc, hst]
          | some st =>
            by_cases hcompat : isBrandedIDCompatible st = true
            · simp [convertBrandedIDColumn, hty, hne, hpc, hst, hcompat]
            · simp [convertBrandedIDColumn, hty, hne, hpc, hst, hcompat]
  · intro st
    cases st with
    | stringType T size =>
      constructor
      · intro h
        refine ⟨T, ?_⟩
        unfold isBrandedIDCompatible at h
        simp only [beq_iff_eq] at h
        rw [h]
      · rintro ⟨T2, hT⟩
        rw [hT]
        simp [isBrandedIDCompatible]
    | integerType T => simp [isBrandedIDCompatible]
    | uuidType T => simp [isBrandedIDCompatible]
    | brandedIDType ns => simp [isBrandedIDCompatible]

/-- C9 witness: a `character varying(14)` column with a `branded_id:EPC`
comment is converted to the branded type in place, keeping its name and
attributes. -/
theorem convertBrandedIDColumn_spec_witness :
    convertBrandedIDColumn
      { name := "epic_id"
        type := some { type := some (SchemaType.stringType "character varying" 14), null := true }
        attrs := [Attr.other "x", Attr.comment "branded_id:EPC"] } =
      { name := "epic_id"
        type := some { type := some (SchemaType.brandedIDType "EPC"), null := true }
        attrs := [Attr.other "x", Attr.comment "branded_id:EPC"] } :=
  (convertBrandedIDColumn_spec
    { name := "epic_id"
      type := some { type := some (SchemaType.stringType "character varying" 14), null := true }
      attrs := [Attr.other "x", Attr.comment "branded_id:EPC"] }).1
    { type := some (SchemaType.stringType "character varying" 14), null := true }
    (SchemaType.stringType "character varying" 14) "EPC" rfl rfl (by decide) (by decide)

/-- C7: `ParseComment` succeeds exactly on comments containing a
`branded_id:` token immediately followed by three uppercase letters,
even embedded in longer text, and returns the letters of the leftmost
such occurrence; `FormatComment` prepends the marker, and the two
round-trip for every three-uppercase-letter namespace. -/
theorem parseComment_spec (comment ns : String) :
    ((∃ n, ParseComment comment = some n) ↔
      ∃ pre a b c post,
        comment.data = pre ++ CommentMarker.data ++ [a, b, c] ++ post ∧
        isUpperAlpha a = true ∧ isUpperAlpha b = true ∧ isUpperAlpha c = true) ∧
    (ParseComment comment = some ns →
      ∃ pre post, comment.data = pre ++ CommentMarker.data ++ ns.data ++ post ∧
        ∀ pre2 a2 b2 c2 post2,
          comment.data = pre2 ++ CommentMarker.data ++ [a2, b2, c2] ++ post2 →
          isUpperAlpha a2 = true → isUpperAlpha b2 = true → isUpperAlpha c2 = true →
          pre.length ≤ pre2.length) ∧
    FormatComment ns = "branded_id:" ++ ns ∧
    (isNamespace3 ns = true → ParseComment (FormatComment ns) = some ns) := by
  refine ⟨⟨?_, ?_⟩, ?_, rfl, ?_⟩
  · rintro ⟨n, hn⟩
    obtain ⟨pre, a, b, c, post, hdec, ha, hb, hc, _, _⟩ :=
      scanComment_sound comment.data n hn
    exact ⟨pre, a, b, c, post, hdec, ha, hb, hc⟩
  · rintro ⟨pre, a, b, c, post, hdec, ha, hb, hc⟩
    have hcomp := scanComment_complete pre post a b c ha hb hc
    rw [← hdec] at hcomp
    exact hcomp
  · intro h
    obtain ⟨pre, a, b, c, post, hdec, ha, hb, hc, hns, hmin⟩ :=
      scanComment_sound comment.data ns h
    refine ⟨pre, post, ?_, hmin⟩
    rw [hns]
    exact hdec
  · intro h3
    obtain ⟨hlen, hall⟩ := isNamespace3_spec ns h3
    obtain ⟨a, b, c, hd⟩ := exists_three ns.data (by
      cases ns
      simpa [String.length] using hlen)
    rw [hd] at hall
    simp only [List.all_cons, List.all_nil, Bool.and_eq_true] at hall
    show scanComment (FormatComment ns).data = some ns
    apply scanComment_of_matchMarker
    rw [matchMarker_eq_some_iff]
    refine ⟨a, b, c, [], ?_, hall.1, hall.2.1, hall.2.2.1, ?_⟩
    · show (CommentMarker ++ ns).data = _
      rw [String.data_append, hd]
    · apply String.ext
      rw [hd]

/-- C7 witness: the round trip and an embedded-marker extraction,
evaluated at `TSK`. -/
theorem parseComment_spec_witness :
    ParseComment (FormatComment "TSK") = some "TSK" ∧
    (∃ n, ParseComment "User task identifier branded_id:TSK for tracking" = some n) :=
  ⟨(parseComment_spec (FormatComment "TSK") "TSK").2.2.2 (by decide),
   ((parseComment_spec "User task identifier branded_id:TSK for tracking" "TSK").1).mpr
     ⟨"User task identifier ".data, 'T', 'S', 'K', " for tracking".data,
       by decide, by decide, by decide, by decide⟩⟩

end Atlas
